import Mathlib

/-!
Shallow embedding of the risky kernel (RISC-V multi-hart kernel) task
subsystem, trap dispatcher, timer, spinlock, one-shot cell, cross-hart
spawn and device-tree hart-map parsing, together with theorems settling
the specification claims.

Machine integers (`usize`/`u64`) are modelled as `Nat` with explicit
reduction modulo `2 ^ 64` where the Rust code can wrap.
-/

namespace Risky

/-- Modulus of a 64-bit machine word (`usize` on riscv64). -/
def WORD : Nat := 2 ^ 64

/-! ## task/context.rs -/

/-- Callee-saved register frame, from `src/task/context.rs`: return address,
stack pointer, the twelve callee-saved registers s0..s11, and the `pc`
field that transports the interrupted program counter across a switch. -/
structure Context where
  ra : Nat
  sp : Nat
  s0 : Nat
  s1 : Nat
  s2 : Nat
  s3 : Nat
  s4 : Nat
  s5 : Nat
  s6 : Nat
  s7 : Nat
  s8 : Nat
  s9 : Nat
  s10 : Nat
  s11 : Nat
  pc : Nat
deriving DecidableEq

/-- `Context::default()` (derive Default): all registers zero. -/
def Context.zero : Context := ⟨0, 0, 0, 0, 0, 0, 0, 0, 0, 0, 0, 0, 0, 0, 0⟩

/-! ## task.rs -/

/-- `TaskState` from `src/task.rs`. -/
inductive TaskState where
  | Ready
  | Running
  | Dead
deriving DecidableEq

/-- `TaskKind` from `src/task.rs`. A user task owns a fixed-size stack,
modelled here by the address of the owned stack buffer. -/
inductive TaskKind where
  | User (stackBottom : Nat)
  | Main
deriving DecidableEq

/-- `Task` from `src/task.rs`: boxed context, kind, state. -/
structure Task where
  context : Context
  kind : TaskKind
  state : TaskState
deriving DecidableEq

/-- `STACK_SIZE` in `src/task.rs` (16 KiB user task stack). -/
def TASK_STACK_SIZE : Nat := 1024 * 16

/-- `Task::main()`: default (zero) context, kind Main, default state Ready. -/
def Task.main : Task := ⟨Context.zero, TaskKind.Main, TaskState.Ready⟩

/-- `impl From<Box<dyn FnOnce()>> for Task` in `src/task.rs`: a fresh user
task whose context has `ra = pc = trampoline`, `sp` = stack top aligned
down to 16 bytes, and the closure (data, vtable) pair stashed in s1/s2.
The trampoline address and the allocated stack bottom are parameters of
the model (they are runtime addresses in the kernel). -/
def Task.fromClosure (trampoline stackBottom data vtable : Nat) : Task :=
  let sp := ((stackBottom + TASK_STACK_SIZE) / 16) * 16
  { context := { Context.zero with
      ra := trampoline
      pc := trampoline
      sp := sp
      s1 := data
      s2 := vtable }
    kind := TaskKind.User stackBottom
    state := TaskState.Ready }

/-! ## task/scheduler.rs -/

/-- `Scheduler` from `src/task/scheduler.rs`: idle context, current task,
FIFO waiting queue (VecDeque: pop at head, push at tail). -/
structure Scheduler where
  idle_context : Context
  current_task : Task
  waiting_tasks : List Task
deriving DecidableEq

/-- `Scheduler::with_task`: given task as current, empty queue, zeroed
idle context. -/
def Scheduler.with_task (t : Task) : Scheduler :=
  ⟨Context.zero, t, []⟩

/-- `Scheduler::add_task`: push to the tail of the waiting queue. -/
def Scheduler.add_task (s : Scheduler) (t : Task) : Scheduler :=
  { s with waiting_tasks := s.waiting_tasks ++ [t] }

/-- Which context the `switch_context` call saves the departing registers
into: the context of the previous (re-enqueued) task, or the idle context
of the scheduler. -/
inductive SwitchSource where
  | prevTask
  | idle
deriving DecidableEq

/-- Outcome of one `Scheduler::schedule` invocation: the scheduler state
after the decision, which context was the save target of the context
switch (`none` when the queue was empty and no switch happened), the
task dropped by the decision (a dead user task, whose stack is freed),
and the program counter the trap returns to. -/
structure ScheduleResult where
  sched : Scheduler
  switched : Option SwitchSource
  dropped : Option Task
  resumePc : Nat
deriving DecidableEq

/-- `Scheduler::schedule(interrupted_epc)` from `src/task/scheduler.rs`,
the body executed under the scheduler lock plus the value the resumed
frame returns (`scheduler.current_task.context.pc`, which is the context
pc of the task switched in):
1. pop the queue head; if empty return `interrupted_epc` unchanged;
2. swap the popped task into `current_task`, obtaining the old task;
3. if the old task state is not Dead, or its kind is Main: store
   `interrupted_epc` into its context pc, re-enqueue it at the tail, and
   save the departing registers into its context; otherwise save into the
   idle context and drop the old task;
4. mark the new current task Running; resume at its context pc. -/
def Scheduler.schedule (s : Scheduler) (interrupted_epc : Nat) : ScheduleResult :=
  match s.waiting_tasks with
  | [] => ⟨s, none, none, interrupted_epc⟩
  | next :: rest =>
    let old_task := s.current_task
    if old_task.state ≠ TaskState.Dead ∨ old_task.kind = TaskKind.Main then
      let old_requeued : Task :=
        { old_task with context := { old_task.context with pc := interrupted_epc } }
      ⟨⟨s.idle_context, { next with state := TaskState.Running }, rest ++ [old_requeued]⟩,
        some SwitchSource.prevTask, none, next.context.pc⟩
    else
      ⟨⟨s.idle_context, { next with state := TaskState.Running }, rest⟩,
        some SwitchSource.idle, some old_task, next.context.pc⟩

/-! ## timer.rs and interrupt.rs -/

/-- `INTERVAL` in `src/timer.rs`: the fixed tick interval in counter
ticks. -/
def INTERVAL : Nat := 100000

/-- `CAUSE_INTERRUPT_FLAG` in `src/interrupt.rs`: the top bit of the
64-bit cause word. -/
def CAUSE_INTERRUPT_FLAG : Nat := 2 ^ 63

/-- `soc::uart::IRQ` in `src/soc.rs`. -/
def UART_IRQ : Nat := 10

/-- Observable actions performed by the trap dispatcher, in program
order: programming the firmware timer (`sbi::set_timer`), entering the
scheduler (`Scheduler::schedule(epc)`), clearing the pending software
IPI bit (`timer::ipi::clear`), claiming and completing an external IRQ
at the PLIC, and echoing a received UART byte. -/
inductive KEvent where
  | setTimer (deadline : Nat)
  | schedEnter (epc : Nat)
  | clearSip
  | extClaim (irq : Nat)
  | extComplete (irq : Nat)
  | uartEcho (c : Nat)
deriving DecidableEq

/-- Kernel state visible to the trap dispatcher: the scheduler of the
current hart, the pending-interrupt CSR `sip`, the current value of the
real-time counter, the IRQ number a PLIC claim would return (0 when no
external interrupt is pending) and the byte a UART read would return. -/
structure KState where
  sched : Scheduler
  sip : Nat
  time : Nat
  pendingIrq : Nat
  pendingChar : Option Nat
deriving DecidableEq

/-- `handle_timer_interrupt` in `src/interrupt.rs`: first
`timer::schedule_next()` (read the counter, program the firmware timer
for `now + INTERVAL`), then `Scheduler::schedule(epc)`. -/
def handle_timer_interrupt (epc : Nat) (st : KState) : KState × Nat × List KEvent :=
  let r := st.sched.schedule epc
  ({ st with sched := r.sched }, r.resumePc,
    [KEvent.setTimer ((st.time + INTERVAL) % WORD), KEvent.schedEnter epc])

/-- `handle_external_interrupt` in `src/interrupt.rs`: claim an IRQ from
the PLIC; the UART IRQ echoes a received byte; IRQ 0 is ignored; any
other IRQ panics (`none`); a nonzero claim is completed. -/
def handle_external_interrupt (st : KState) : Option (List KEvent) :=
  let irq := st.pendingIrq
  if irq = UART_IRQ then
    some ([KEvent.extClaim irq]
      ++ (match st.pendingChar with
          | some c => [KEvent.uartEcho c]
          | none => [])
      ++ [KEvent.extComplete irq])
  else if irq = 0 then
    some [KEvent.extClaim irq]
  else
    none

/-- `handle_exception` in `src/interrupt.rs`: ecall from U, S or M mode
(codes 8, 9, 11) returns `epc + 4`; every other exception code panics
(`none`). -/
def handle_exception (code epc : Nat) (st : KState) : Option (KState × Nat × List KEvent) :=
  if code = 8 ∨ code = 9 ∨ code = 11 then
    some (st, (epc + 4) % WORD, [])
  else
    none

/-- `trap_handler` in `src/interrupt.rs`: decode the cause word (top bit
= interrupt, remaining bits = exception code) and dispatch. Interrupt
code 7 is the machine timer, code 11 the machine external interrupt
(which returns `epc`); every other interrupt code falls through to
returning `epc` unchanged. Exceptions go to `handle_exception`. The
result is the new `epc` written back by the trap vector, with the
updated kernel state and the trace of dispatcher actions; `none` models
a kernel panic. -/
def trap_handler (cause epc : Nat) (st : KState) : Option (KState × Nat × List KEvent) :=
  if cause / CAUSE_INTERRUPT_FLAG % 2 = 1 then
    let code := cause % CAUSE_INTERRUPT_FLAG
    if code = 7 then
      some (handle_timer_interrupt epc st)
    else if code = 11 then
      match handle_external_interrupt st with
      | some evs => some (st, epc, evs)
      | none => none
    else
      some (st, epc, [])
  else
    handle_exception (cause % CAUSE_INTERRUPT_FLAG) epc st

/-- True when the event is a firmware timer rearm. -/
def KEvent.isSetTimer : KEvent → Bool
  | KEvent.setTimer _ => true
  | _ => false

/-- True when the event is an entry into the scheduler. -/
def KEvent.isSchedEnter : KEvent → Bool
  | KEvent.schedEnter _ => true
  | _ => false

/-- True when somewhere in the trace a timer rearm occurs strictly after
a scheduler entry (the rearm is performed after the scheduling
decision). -/
def rearmAfterDecision (tr : List KEvent) : Bool :=
  match tr.dropWhile (fun e => !e.isSchedEnter) with
  | [] => false
  | _ :: rest => rest.any KEvent.isSetTimer

/-! ## fdt.rs -/

/-- A property of a device-tree node, as consumed by
`parse_hart_count` in `src/fdt.rs`: a `device_type` string property, a
`reg` property (first u32 cell), or any other property. -/
inductive FdtProp where
  | deviceType (s : String)
  | reg (v : Nat)
  | other
deriving DecidableEq

/-- A device-tree node: its list of properties, in iteration order. -/
structure FdtNode where
  props : List FdtProp
deriving DecidableEq

/-- The fold over one node's properties in `parse_hart_count`: starting
from `(false, none)`, a `device_type` property equal to "cpu" sets the
cpu flag, a `reg` property records its value, anything else (including a
`device_type` with another value) is ignored. -/
def fdtPropStep : Bool × Option Nat → FdtProp → Bool × Option Nat
  | (cpu, reg), FdtProp.deviceType s => if s = "cpu" then (true, reg) else (cpu, reg)
  | (cpu, _), FdtProp.reg v => (cpu, some v)
  | (cpu, reg), FdtProp.other => (cpu, reg)

/-- `(is_cpu, reg)` for one node. -/
def FdtNode.fold (n : FdtNode) : Bool × Option Nat :=
  n.props.foldl fdtPropStep (false, none)

/-- The node loop of `parse_hart_count`: for each node, if it is a cpu
node with a `reg` value, push that value; a cpu node without `reg`
contributes nothing; a non-cpu node after at least one collected id ends
the loop; a non-cpu node before any id is skipped. The input list is the
node sequence yielded after skipping up to the `cpus` node. -/
def collectIds : List FdtNode → List Nat → List Nat
  | [], acc => acc
  | n :: rest, acc =>
    let f := n.fold
    if f.1 then
      match f.2 with
      | some r => collectIds rest (acc ++ [r])
      | none => collectIds rest acc
    else if acc.isEmpty then
      collectIds rest acc
    else
      acc

/-- `parse_hart_count` in `src/fdt.rs` (the part after the external
device-tree decoding, over the abstract node sequence): collect the
physical hart ids; if none were found, fall back to the single id 0;
publish the map and return the count. The result is
`(count, published hart id map)`. -/
def parse_hart_count (nodes : List FdtNode) : Nat × List Nat :=
  let ids := collectIds nodes []
  let ids := if ids.isEmpty then [0] else ids
  (ids.length, ids)

/-! ## spin/mutex.rs -/

/-- The hart-local state the interrupt-safe spinlock interacts with: the
`mstatus.MIE` local interrupt-enable bit and the `locked` flag of the
mutex. The CSR set/clear instructions of `interrupt::enable` and
`interrupt::disable` touch only the MIE bit, so that bit is modelled as
a Bool. -/
structure MutexState where
  mie : Bool
  locked : Bool
deriving DecidableEq

/-- `MutexGuard` from `src/spin/mutex.rs`: remembers whether interrupts
were enabled just before `lock()`. -/
structure MGuard where
  interrupt_state : Bool
deriving DecidableEq

/-- `interrupt::enable` in `src/interrupt.rs`: set `mstatus.MIE`. -/
def interrupt.enable (s : MutexState) : MutexState :=
  { s with mie := true }

/-- Modelled from the spec: `interrupt::disable`, called by
`Mutex::lock` but not present under src (only `enable` is); spec 4.B
step (2): "if enabled, disable local interrupts", i.e. clear
`mstatus.MIE`. -/
def interrupt.disable (s : MutexState) : MutexState :=
  { s with mie := false }

/-- `Mutex::lock` from `src/spin/mutex.rs`, applied at the moment the
spinning compare-and-swap succeeds (the lock was free): sample the
current interrupt-enable state, disable interrupts if they were enabled,
acquire the lock, and return a guard remembering the sampled state. -/
def Mutex.lock (s : MutexState) : MutexState × MGuard :=
  let irqs_enabled := s.mie
  let s := if irqs_enabled then interrupt.disable s else s
  ({ s with locked := true }, ⟨irqs_enabled⟩)

/-- `Drop for MutexGuard` from `src/spin/mutex.rs`: release the lock,
then re-enable interrupts exactly when they were enabled before
`lock()`. -/
def MGuard.drop (s : MutexState) (g : MGuard) : MutexState :=
  let s := { s with locked := false }
  if g.interrupt_state then interrupt.enable s else s

/-! ## spin/once.rs -/

/-- `LockState` from `src/spin/once.rs`. -/
inductive LockState where
  | Empty
  | Initializing
  | Ready
deriving DecidableEq

/-- `OnceLock` from `src/spin/once.rs`: an atomic state word and the
guarded slot. -/
structure OnceLock (α : Type) where
  state : LockState
  data : Option α
deriving DecidableEq

/-- `OnceLock::new()`. -/
def OnceLock.new {α : Type} : OnceLock α := ⟨LockState.Empty, none⟩

/-- `OnceLock::get`: an acquire load of the state; only in Ready is the
value observable. -/
def OnceLock.get {α : Type} (c : OnceLock α) : Option α :=
  if c.state = LockState.Ready then c.data else none

/-- `OnceLock::set` run to completion: the compare-and-swap
Empty → Initializing either wins (then the value is written and the
state is stored Ready with release ordering, returning ok) or fails
(returning the rejected value unchanged). -/
def OnceLock.set {α : Type} (c : OnceLock α) (v : α) : OnceLock α × Except α Unit :=
  if c.state = LockState.Empty then
    (⟨LockState.Ready, some v⟩, Except.ok ())
  else
    (c, Except.error v)

/-- The cell as observed after a winning compare-and-swap and the value
write, but before the release store of Ready: state Initializing. On a
losing compare-and-swap the cell is unchanged. -/
def OnceLock.setPreRelease {α : Type} (c : OnceLock α) (v : α) : OnceLock α :=
  if c.state = LockState.Empty then
    ⟨LockState.Initializing, some v⟩
  else
    c

/-- A sequence of `set` calls, returning the final cell and the number
of calls that returned ok. -/
def OnceLock.runSets {α : Type} (c : OnceLock α) : List α → OnceLock α × Nat
  | [] => (c, 0)
  | v :: vs =>
    let r := c.set v
    let rest := r.1.runSets vs
    (rest.1, (match r.2 with | Except.ok _ => 1 | Except.error _ => 0) + rest.2)

/-! ## Cpu record and Task::spawn (task.rs, main.rs) -/

/-- Modelled from the spec: the `Cpu` record (spec 3, "CPU record"),
whose declaration (`arch::Cpu`) is not under src; the fields are the
ones constructed in `init_cpu_vec` in `src/main.rs`: physical hart id,
logical (dense) id, the per-hart scheduler behind its lock, kernel
stack top and trap stack top. -/
structure Cpu where
  physical_id : Nat
  logical_id : Nat
  sched : Scheduler
  stack_top : Nat
  trap_stack_top : Nat
deriving DecidableEq

/-- Observable actions of `Task::spawn`, in program order: acquiring and
releasing the target scheduler lock, enqueueing the new task, and
sending a software IPI (`timer::ipi::send`) to a physical hart id. -/
inductive SpawnEvent where
  | lockSched (logical : Nat)
  | enqueue (logical : Nat)
  | unlockSched (logical : Nat)
  | sendIpi (physical : Nat)
deriving DecidableEq

/-- The state `Task::spawn` reads and writes: the published CPU table
(indexed by logical id) and the global `SPAWN_TICKET` counter. -/
structure SpawnWorld where
  cpus : List Cpu
  ticket : Nat
deriving DecidableEq

/-- `Task::spawn` from `src/task.rs`: fetch-and-add the ticket counter,
target hart = ticket mod N, enqueue the new task into the target
scheduler under its lock, release the lock, then send a software IPI to
the target physical id only if the target differs from the spawning
hart. `self_logical` is the logical id of the spawning hart
(`Cpu::get().logical_id`, the thread-pointer-held CPU record, modelled
from the spec as a parameter). Returns the new world and the event
trace. -/
def Task.spawn (w : SpawnWorld) (self_logical : Nat) (t : Task) : SpawnWorld × List SpawnEvent :=
  let ticket := w.ticket
  let target := ticket % w.cpus.length
  match w.cpus[target]? with
  | none => ({ w with ticket := ticket + 1 }, [])
  | some c =>
    let cpus := w.cpus.set target { c with sched := c.sched.add_task t }
    let evs := [SpawnEvent.lockSched target, SpawnEvent.enqueue target,
        SpawnEvent.unlockSched target]
      ++ (if target ≠ self_logical then [SpawnEvent.sendIpi c.physical_id] else [])
    (⟨cpus, ticket + 1⟩, evs)

/-- A sequence of spawn calls: each element gives the spawning hart and
the task. -/
def runSpawns (w : SpawnWorld) : List (Nat × Task) → SpawnWorld
  | [] => w
  | (self, t) :: rest => runSpawns (Task.spawn w self t).1 rest

/-! ## Concrete fixtures used by counterexamples and witnesses -/

/-- A sample user task; its context pc (the trampoline address of the
model) is 42. -/
def sampleTask42 : Task := Task.fromClosure 42 4096 11 22

/-- A sample kernel state: main task current, one ready user task whose
saved pc is 42, counter at 0, no pending IRQ or byte. -/
def sampleKState : KState :=
  ⟨(Scheduler.with_task Task.main).add_task sampleTask42, 0, 0, 0, none⟩

/-! ## Claims -/

/-- C1: the dispatcher in src ignores software interrupts entirely. For
a cause word with the interrupt bit set and exception code 3 (machine
software interrupt, `arch::cause::interrupts`) or code 1 (supervisor
software interrupt, the bit raised by `Task::exit` via sip), the match
in `trap_handler` falls through to the default arm: it returns epc
unchanged, performs no action (in particular never calls
`timer::ipi::clear`) and never enters the scheduler, with the whole
kernel state untouched. -/
theorem trap_handler_ignores_software_interrupt :
    ∀ (epc : Nat) (st : KState),
      trap_handler (2 ^ 63 + 3) epc st = some (st, epc, []) ∧
      trap_handler (2 ^ 63 + 1) epc st = some (st, epc, []) := by
  intro epc st
  exact ⟨rfl, rfl⟩

/-- C3 counterexample: on a user ecall (cause 8) at epc 100 with a ready
task whose saved pc is 42, the dispatcher returns 104 and leaves the
kernel state untouched with an empty action trace, while the scheduler,
had it been entered with epc + 4, would have chosen pc 42 ≠ 104. So the
dispatcher neither enters the scheduler nor returns the pc the scheduler
would choose. -/
theorem ecall_no_scheduler_entry_cex :
    trap_handler 8 100 sampleKState = some (sampleKState, 104, []) ∧
    (sampleKState.sched.schedule 104).resumePc = 42 ∧
    (104 : Nat) ≠ 42 := by
  refine ⟨rfl, rfl, by decide⟩

/-- C3 amended: for every environment-call exception (cause 8, 9 or 11),
the dispatcher returns epc + 4 (reduced modulo the 64-bit word) directly,
without entering the scheduler and leaving all state unchanged; the
ecall is thus not re-executed, but no reschedule happens either. -/
theorem ecall_returns_epc_plus_4_without_scheduling :
    ∀ (cause epc : Nat) (st : KState), cause = 8 ∨ cause = 9 ∨ cause = 11 →
      trap_handler cause epc st = some (st, (epc + 4) % WORD, []) := by
  intro cause epc st h
  rcases h with h | h | h <;> subst h <;> rfl

/-- C3 witness: the amended theorem applied at cause 9 and epc 200. -/
theorem ecall_returns_epc_plus_4_without_scheduling_witness :
    trap_handler 9 200 sampleKState = some (sampleKState, (200 + 4) % WORD, []) :=
  ecall_returns_epc_plus_4_without_scheduling 9 200 sampleKState (Or.inr (Or.inl rfl))

/-- C4 counterexample: on a timer trap (cause with interrupt bit and
code 7) at epc 100 from the sample state, the action trace is exactly
[program timer to 0 + 100000, enter scheduler], i.e. the rearm happens
strictly before the scheduling decision: the trace does contain a rearm
and a scheduler entry, yet no rearm occurs after the scheduler entry. -/
theorem timer_rearm_not_after_decision_cex :
    trap_handler (2 ^ 63 + 7) 100 sampleKState =
      some ({ sampleKState with sched := (sampleKState.sched.schedule 100).sched }, 42,
        [KEvent.setTimer 100000, KEvent.schedEnter 100]) ∧
    rearmAfterDecision [KEvent.setTimer 100000, KEvent.schedEnter 100] = false ∧
    ([KEvent.setTimer 100000, KEvent.schedEnter 100]).any KEvent.isSetTimer = true ∧
    ([KEvent.setTimer 100000, KEvent.schedEnter 100]).any KEvent.isSchedEnter = true := by
  exact ⟨rfl, rfl, rfl, rfl⟩

/-- C4 amended: on every timer trap the handler programs the firmware
timer to now + INTERVAL (INTERVAL = 100000 counter ticks, modulo the
64-bit word) and enters the scheduler with the current epc, returning
its chosen pc — but the rearm is performed before the scheduling
decision, not after it. -/
theorem timer_trap_rearm_before_decision :
    ∀ (cause epc : Nat) (st : KState),
      cause / CAUSE_INTERRUPT_FLAG % 2 = 1 → cause % CAUSE_INTERRUPT_FLAG = 7 →
      trap_handler cause epc st =
        some ({ st with sched := (st.sched.schedule epc).sched },
          (st.sched.schedule epc).resumePc,
          [KEvent.setTimer ((st.time + INTERVAL) % WORD), KEvent.schedEnter epc]) ∧
      INTERVAL = 100000 ∧
      rearmAfterDecision
        [KEvent.setTimer ((st.time + INTERVAL) % WORD), KEvent.schedEnter epc] = false := by
  intro cause epc st h1 h2
  refine ⟨?_, rfl, rfl⟩
  simp [trap_handler, handle_timer_interrupt, h1, h2]

/-- C4 witness: the amended theorem applied at the concrete cause word
with the interrupt bit and code 7, epc 100, and the sample state. -/
theorem timer_trap_rearm_before_decision_witness :
    ((2 ^ 63 + 7) / CAUSE_INTERRUPT_FLAG % 2 = 1 ∧
      (2 ^ 63 + 7) % CAUSE_INTERRUPT_FLAG = 7) ∧
    trap_handler (2 ^ 63 + 7) 100 sampleKState =
      some ({ sampleKState with sched := (sampleKState.sched.schedule 100).sched },
        (sampleKState.sched.schedule 100).resumePc,
        [KEvent.setTimer ((sampleKState.time + INTERVAL) % WORD), KEvent.schedEnter 100]) :=
  ⟨⟨by decide, by decide⟩,
    (timer_trap_rearm_before_decision (2 ^ 63 + 7) 100 sampleKState
      (by decide) (by decide)).1⟩

/-- C2: evaluation of the code at the failing input. Seed a scheduler
with the Main task as current, add one Ready user task, and run two
scheduling decisions. After the second decision the new current task is
Running, but the preempted user task was re-enqueued (passed to
add_task) still in state Running — schedule never resets a preempted
task to Ready — so the waiting queue holds a Running task and two tasks
of the hart are Running at once. -/
theorem schedule_leaves_requeued_task_running :
    ((((Scheduler.with_task Task.main).add_task
        (Task.fromClosure 7000 4096 11 22)).schedule 100).sched.current_task.state
      = TaskState.Running) ∧
    (((((Scheduler.with_task Task.main).add_task
        (Task.fromClosure 7000 4096 11 22)).schedule 100).sched.schedule
          200).sched.current_task.state = TaskState.Running) ∧
    (((((Scheduler.with_task Task.main).add_task
        (Task.fromClosure 7000 4096 11 22)).schedule 100).sched.schedule
          200).sched.waiting_tasks.map Task.state = [TaskState.Running]) := by
  exact ⟨rfl, rfl, rfl⟩

/-- C5: evaluation of the code at the failing input. For a device tree
whose cpu nodes carry reg = 1 and then reg = 0, with boot hart physical
id 0, parse_hart_count publishes the map in device-tree order [1, 0]:
logical index 0 holds physical id 1, not the boot hart id 0. The
function takes no boot-hart argument at all, even though its caller
init_cpu_vec in src/main.rs passes one. -/
theorem parse_hart_count_boot_hart_not_first :
    parse_hart_count
        [⟨[FdtProp.deviceType "cpu", FdtProp.reg 1]⟩,
          ⟨[FdtProp.deviceType "cpu", FdtProp.reg 0]⟩]
      = (2, [1, 0]) ∧
    ([1, 0] : List Nat).head? ≠ some 0 := by
  refine ⟨rfl, by decide⟩

/-- C6: in schedule with a non-empty ready queue, the fate of the
previous current task. If its state is not Dead or its kind is Main, its
context pc is set to the interrupted pc, it is re-enqueued at the queue
tail, its context is the save target of the context switch, and nothing
is dropped; otherwise the idle context is the save target and the
previous task (a dead user task, with its stack) is dropped. In both
cases the popped head becomes current in state Running and the resume pc
is its context pc. -/
theorem schedule_previous_task_fate :
    ∀ (s : Scheduler) (epc : Nat) (next : Task) (rest : List Task),
      s.waiting_tasks = next :: rest →
      ((s.current_task.state ≠ TaskState.Dead ∨ s.current_task.kind = TaskKind.Main) →
        s.schedule epc =
          ⟨⟨s.idle_context, { next with state := TaskState.Running },
              rest ++ [{ s.current_task with
                context := { s.current_task.context with pc := epc } }]⟩,
            some SwitchSource.prevTask, none, next.context.pc⟩) ∧
      (s.current_task.state = TaskState.Dead ∧ s.current_task.kind ≠ TaskKind.Main →
        s.schedule epc =
          ⟨⟨s.idle_context, { next with state := TaskState.Running }, rest⟩,
            some SwitchSource.idle, some s.current_task, next.context.pc⟩) := by
  intro s epc next rest h
  constructor
  · intro hc
    simp only [Scheduler.schedule, h]
    rw [if_pos hc]
  · rintro ⟨h1, h2⟩
    simp only [Scheduler.schedule, h]
    rw [if_neg]
    simp [h1, h2]

/-- C6 witness: the fate theorem applied to a concrete scheduler whose
current task is Main (state Ready) and whose queue holds the sample user
task; the previous task is re-enqueued with pc 9 and its context is the
save target. -/
theorem schedule_previous_task_fate_witness :
    (Scheduler.mk Context.zero Task.main [sampleTask42]).schedule 9 =
      ⟨⟨Context.zero, { sampleTask42 with state := TaskState.Running },
          [] ++ [{ Task.main with context := { Task.main.context with pc := 9 } }]⟩,
        some SwitchSource.prevTask, none, sampleTask42.context.pc⟩ :=
  (schedule_previous_task_fate ⟨Context.zero, Task.main, [sampleTask42]⟩ 9
      sampleTask42 [] rfl).1 (Or.inl (by decide))

/-- C7: the interrupt-safe spinlock discipline. Acquiring a free lock
leaves local interrupts disabled for the whole time the guard is alive
(nothing in the critical section touches the MIE bit) and records the
pre-lock interrupt state in the guard; dropping the guard releases the
lock and restores the hart state exactly to its pre-lock value, so
interrupts are re-enabled on drop if and only if lock observed them
enabled. -/
theorem mutex_lock_irq_discipline :
    ∀ s : MutexState, s.locked = false →
      (Mutex.lock s).1.mie = false ∧
      (Mutex.lock s).1.locked = true ∧
      (Mutex.lock s).2.interrupt_state = s.mie ∧
      MGuard.drop (Mutex.lock s).1 (Mutex.lock s).2 = s ∧
      ((MGuard.drop (Mutex.lock s).1 (Mutex.lock s).2).mie = true ↔ s.mie = true) := by
  rintro ⟨mie, locked⟩ h
  subst h
  cases mie <;> decide

/-- C7 witness: the lock discipline applied to a free lock on a hart
with interrupts enabled. -/
theorem mutex_lock_irq_discipline_witness :
    (MutexState.mk true false).locked = false ∧
    ((Mutex.lock ⟨true, false⟩).1.mie = false ∧
      (Mutex.lock ⟨true, false⟩).1.locked = true ∧
      (Mutex.lock ⟨true, false⟩).2.interrupt_state = (MutexState.mk true false).mie ∧
      MGuard.drop (Mutex.lock ⟨true, false⟩).1 (Mutex.lock ⟨true, false⟩).2 = ⟨true, false⟩ ∧
      ((MGuard.drop (Mutex.lock ⟨true, false⟩).1 (Mutex.lock ⟨true, false⟩).2).mie = true ↔
        (MutexState.mk true false).mie = true)) :=
  ⟨rfl, mutex_lock_irq_discipline ⟨true, false⟩ rfl⟩

/-- Helper for the one-shot cell: once the state is no longer Empty, any
further sequence of sets changes nothing and never succeeds. -/
theorem OnceLock.runSets_stuck {α : Type} (c : OnceLock α) (vs : List α)
    (h : ¬c.state = LockState.Empty) : c.runSets vs = (c, 0) := by
  induction vs with
  | nil => rfl
  | cons v vs ih => simp [OnceLock.runSets, OnceLock.set, h, ih]

/-- C8: the one-shot cell. A set succeeds exactly when the state is
Empty; a failed set returns precisely the rejected value and leaves the
cell unchanged; over any sequence of sets starting from a fresh cell at
most one succeeds (and the first one does, publishing its value); get
returns the stored value when the state is Ready and returns empty in
any other state — in particular both before any successful set and in
the Initializing window after a winning compare-and-swap but before the
release store. -/
theorem oncelock_one_shot (α : Type) :
    (∀ (c : OnceLock α) (v : α), (c.set v).2 = Except.ok () ↔ c.state = LockState.Empty) ∧
    (∀ (c : OnceLock α) (v : α), ¬c.state = LockState.Empty →
      c.set v = (c, Except.error v)) ∧
    (∀ vs : List α, ((OnceLock.new (α := α)).runSets vs).2 ≤ 1) ∧
    (∀ c : OnceLock α, ¬c.state = LockState.Ready → c.get = none) ∧
    (∀ c : OnceLock α, c.state = LockState.Ready → c.get = c.data) ∧
    (∀ (c : OnceLock α) (v : α), c.state = LockState.Empty →
      (c.setPreRelease v).get = none) ∧
    (∀ (v : α) (rest : List α),
      OnceLock.new.runSets (v :: rest) = (⟨LockState.Ready, some v⟩, 1) ∧
      (OnceLock.runSets (α := α) OnceLock.new (v :: rest)).1.get = some v) := by
  refine ⟨?_, ?_, ?_, ?_, ?_, ?_, ?_⟩
  · intro c v
    by_cases h : c.state = LockState.Empty <;> simp [OnceLock.set, h]
  · intro c v h
    simp [OnceLock.set, h]
  · intro vs
    cases vs with
    | nil => simp [OnceLock.runSets]
    | cons v rest =>
      simp [OnceLock.runSets, OnceLock.set, OnceLock.new,
        OnceLock.runSets_stuck (⟨LockState.Ready, some v⟩ : OnceLock α) rest
          (fun h => LockState.noConfusion h)]
  · intro c h
    simp [OnceLock.get, h]
  · intro c h
    simp [OnceLock.get, h]
  · intro c v h
    simp [OnceLock.setPreRelease, OnceLock.get, h]
  · intro v rest
    constructor
    · simp [OnceLock.runSets, OnceLock.set, OnceLock.new,
        OnceLock.runSets_stuck (⟨LockState.Ready, some v⟩ : OnceLock α) rest
          (fun h => LockState.noConfusion h)]
    · simp [OnceLock.runSets, OnceLock.set, OnceLock.new, OnceLock.get,
        OnceLock.runSets_stuck (⟨LockState.Ready, some v⟩ : OnceLock α) rest
          (fun h => LockState.noConfusion h)]

/-- C8 witness: the one-shot cell theorem at concrete cells over Nat: a
set on a Ready cell fails returning its own value, a get in the
Initializing window returns empty, and of three racing sets on a fresh
cell exactly the first succeeds. -/
theorem oncelock_one_shot_witness :
    ((OnceLock.mk LockState.Ready (some 7) : OnceLock Nat).set 9 =
      (⟨LockState.Ready, some 7⟩, Except.error 9)) ∧
    ((OnceLock.mk LockState.Initializing (some 7) : OnceLock Nat).get = none) ∧
    (OnceLock.runSets (α := Nat) OnceLock.new [3, 4, 5] = (⟨LockState.Ready, some 3⟩, 1)) ∧
    ((OnceLock.mk LockState.Ready (some 7) : OnceLock Nat).get =
      (OnceLock.mk LockState.Ready (some 7) : OnceLock Nat).data) :=
  ⟨(oncelock_one_shot Nat).2.1 ⟨LockState.Ready, some 7⟩ 9 (by decide),
    (oncelock_one_shot Nat).2.2.2.1 ⟨LockState.Initializing, some 7⟩ (by decide),
    ((oncelock_one_shot Nat).2.2.2.2.2.2 3 [4, 5]).1,
    (oncelock_one_shot Nat).2.2.2.2.1 ⟨LockState.Ready, some 7⟩ rfl⟩

/-- Helper for spawn: every spawn call advances the ticket counter by
exactly one, whichever branch is taken. -/
theorem Task.spawn_ticket (w : SpawnWorld) (self : Nat) (t : Task) :
    (Task.spawn w self t).1.ticket = w.ticket + 1 := by
  cases hc : w.cpus[w.ticket % w.cpus.length]? with
  | none => simp [Task.spawn, hc]
  | some c => simp [Task.spawn, hc]

/-- C9: spawn distribution. A spawn reading ticket value k on a table of
N harts advances the counter to k + 1 and targets the hart at logical
index k mod N: it enqueues the new task at the tail of that scheduler
waiting queue between acquiring and releasing that scheduler lock, the
lock release precedes any IPI in the trace, and a software IPI to the
target physical id is sent if and only if the target differs from the
spawning hart. Moreover, the ticket counter equals its initial value
plus the number of spawn calls performed, so the k-th call (counted from
0, starting at ticket 0) observes ticket k. -/
theorem spawn_distribution :
    (∀ (w : SpawnWorld) (self : Nat) (t : Task) (c : Cpu),
      w.cpus[w.ticket % w.cpus.length]? = some c →
      (Task.spawn w self t).1.ticket = w.ticket + 1 ∧
      (Task.spawn w self t).1.cpus =
        w.cpus.set (w.ticket % w.cpus.length)
          { c with sched := c.sched.add_task t } ∧
      ({ c with sched := c.sched.add_task t }).sched.waiting_tasks
        = c.sched.waiting_tasks ++ [t] ∧
      (Task.spawn w self t).2 =
        [SpawnEvent.lockSched (w.ticket % w.cpus.length),
          SpawnEvent.enqueue (w.ticket % w.cpus.length),
          SpawnEvent.unlockSched (w.ticket % w.cpus.length)]
          ++ (if w.ticket % w.cpus.length ≠ self
              then [SpawnEvent.sendIpi c.physical_id] else []) ∧
      (w.ticket % w.cpus.length = self →
        (Task.spawn w self t).2 =
          [SpawnEvent.lockSched (w.ticket % w.cpus.length),
            SpawnEvent.enqueue (w.ticket % w.cpus.length),
            SpawnEvent.unlockSched (w.ticket % w.cpus.length)]) ∧
      (w.ticket % w.cpus.length ≠ self →
        (Task.spawn w self t).2 =
          [SpawnEvent.lockSched (w.ticket % w.cpus.length),
            SpawnEvent.enqueue (w.ticket % w.cpus.length),
            SpawnEvent.unlockSched (w.ticket % w.cpus.length),
            SpawnEvent.sendIpi c.physical_id])) ∧
    (∀ (w : SpawnWorld) (calls : List (Nat × Task)),
      (runSpawns w calls).ticket = w.ticket + calls.length) := by
  constructor
  · intro w self t c hc
    refine ⟨Task.spawn_ticket w self t, ?_, rfl, ?_, ?_, ?_⟩
    · simp [Task.spawn, hc]
    · simp [Task.spawn, hc]
    · intro h
      subst h
      simp [Task.spawn, hc]
    · intro h
      simp [Task.spawn, hc, h]
  · intro w calls
    induction calls generalizing w with
    | nil => rfl
    | cons p rest ih =>
      cases p with
      | mk self t =>
        simp [runSpawns, ih, Task.spawn_ticket]
        omega

/-- C9 witness: the distribution theorem applied to a concrete two-hart
world at ticket 1 with spawning hart 0: the target is hart 1, the task
lands at the tail of the hart-1 scheduler queue, and one IPI to physical
id 5 follows the lock release; plus the ticket count after two calls
from a fresh counter. -/
theorem spawn_distribution_witness :
    ((SpawnWorld.mk
        [⟨0, 0, Scheduler.with_task Task.main, 0, 0⟩,
          ⟨5, 1, Scheduler.with_task Task.main, 0, 0⟩] 1).cpus[
            (1 : Nat) % 2]? = some ⟨5, 1, Scheduler.with_task Task.main, 0, 0⟩) ∧
    ((Task.spawn ⟨[⟨0, 0, Scheduler.with_task Task.main, 0, 0⟩,
        ⟨5, 1, Scheduler.with_task Task.main, 0, 0⟩], 1⟩ 0 sampleTask42).2 =
      [SpawnEvent.lockSched 1, SpawnEvent.enqueue 1, SpawnEvent.unlockSched 1,
        SpawnEvent.sendIpi 5]) :=
  ⟨rfl,
    ((spawn_distribution.1
        ⟨[⟨0, 0, Scheduler.with_task Task.main, 0, 0⟩,
          ⟨5, 1, Scheduler.with_task Task.main, 0, 0⟩], 1⟩ 0 sampleTask42
        ⟨5, 1, Scheduler.with_task Task.main, 0, 0⟩ rfl).2.2.2.2.2 (by decide))⟩

/-- Helper for the device-tree fold: a property list containing no
device_type "cpu" property never raises the cpu flag. -/
theorem fdt_fold_no_cpu (props : List FdtProp) (acc : Bool × Option Nat)
    (hacc : acc.1 = false) (h : FdtProp.deviceType "cpu" ∉ props) :
    (props.foldl fdtPropStep acc).1 = false := by
  induction props generalizing acc with
  | nil => exact hacc
  | cons p rest ih =>
    have hp : p ≠ FdtProp.deviceType "cpu" := fun hpe => h (hpe ▸ List.mem_cons_self p rest)
    have hrest : FdtProp.deviceType "cpu" ∉ rest := fun hm => h (List.mem_cons_of_mem p hm)
    refine ih _ ?_ hrest
    cases p with
    | deviceType s =>
      have hs : s ≠ "cpu" := fun he => hp (by rw [he])
      simp [fdtPropStep, hs, hacc]
    | reg v => simpa [fdtPropStep] using hacc
    | other => simpa [fdtPropStep] using hacc

/-- Helper: with no cpu node in the sequence the id collection loop
collects nothing. -/
theorem collectIds_no_cpu (nodes : List FdtNode)
    (h : ∀ n ∈ nodes, (FdtNode.fold n).1 = false) :
    collectIds nodes [] = [] := by
  induction nodes with
  | nil => rfl
  | cons n rest ih =>
    have hn := h n (List.mem_cons_self n rest)
    simp only [collectIds, hn]
    exact ih fun m hm => h m (List.mem_cons_of_mem n hm)

/-- C10: if the device-tree node sequence contains no node with a
device_type property equal to "cpu", parse_hart_count does not fail: it
falls back to the single physical id 0, publishing the hart id map [0]
and returning a count of 1. -/
theorem parse_hart_count_no_cpu_default :
    ∀ nodes : List FdtNode,
      (∀ n ∈ nodes, FdtProp.deviceType "cpu" ∉ n.props) →
      parse_hart_count nodes = (1, [0]) := by
  intro nodes h
  have hflag : ∀ n ∈ nodes, (FdtNode.fold n).1 = false := fun n hn =>
    fdt_fold_no_cpu n.props (false, none) rfl (h n hn)
  simp [parse_hart_count, collectIds_no_cpu nodes hflag]

/-- C10 witness: a device tree whose only nodes carry a reg property
without any device_type, and an empty node: the parser still publishes
[0] with count 1. -/
theorem parse_hart_count_no_cpu_default_witness :
    (∀ n ∈ [FdtNode.mk [FdtProp.reg 5], FdtNode.mk [FdtProp.other]],
      FdtProp.deviceType "cpu" ∉ n.props) ∧
    parse_hart_count [FdtNode.mk [FdtProp.reg 5], FdtNode.mk [FdtProp.other]] = (1, [0]) :=
  ⟨by decide,
    parse_hart_count_no_cpu_default
      [FdtNode.mk [FdtProp.reg 5], FdtNode.mk [FdtProp.other]] (by decide)⟩

end Risky
